import Mathlib

/-!
Shallow embedding of the sound-playback engine's `SoundInstance`
(graph backend) and of its external-node splicing adapter, together with
theorems settling the specification claims.  Times and audio-clock values
are modelled as rationals; JavaScript's `%` (remainder with truncation
toward zero, NaN on a zero divisor) is modelled explicitly.
-/

namespace SoundEngine

/-- Truncation toward zero, as JavaScript's `%` uses. -/
def jsTrunc (x : ℚ) : ℤ := if 0 ≤ x then ⌊x⌋ else ⌈x⌉

/-- JavaScript remainder `t % d`; `none` models the NaN produced when `d = 0`. -/
def jsRem (t d : ℚ) : Option ℚ :=
  if d = 0 then none else some (t - d * jsTrunc (t / d))

/-- JavaScript `x || y` applied to a possibly-NaN number: NaN and `0` are falsy. -/
def jsFalsyOr (x : Option ℚ) (y : ℚ) : ℚ :=
  match x with
  | none => y
  | some v => if v = 0 then y else v

/-- `capTime` from the source: `(time % duration) || 0`. -/
def capTime (time duration : ℚ) : ℚ := jsFalsyOr (jsRem time duration) 0

/-- Mathematical remainder (`a mod b`), used to state the spec's `mod`. -/
def ratMod (a b : ℚ) : ℚ := a - b * ⌊a / b⌋

/-- `pc.math.clamp`. -/
def clamp (v lo hi : ℚ) : ℚ := if hi ≤ v then hi else if v ≤ lo then lo else v

/-!
## External-node splicing adapter

Audio nodes are identified by naturals; the instance's connector node is
`0` and the context destination (speakers) is `1`.  The set of live
`connect` edges is tracked; `disconnect` of an edge that is not connected
is the native no-such-connection failure, modelled as `none`.
Successful disconnects are logged in `dlog`.
-/

/-- The connector node (the instance's gain node). -/
def connector : ℕ := 0

/-- The context destination (speakers). -/
def destination : ℕ := 1

/-- State of the instance's node graph: live edges, the stored external
    node references, and a log of the disconnects issued so far. -/
structure GraphSt where
  edges : Finset (ℕ × ℕ)
  firstNode : Option ℕ
  lastNode : Option ℕ
  dlog : List (ℕ × ℕ)
deriving DecidableEq

/-- `a.connect(b)`. Duplicate connections between the same pair collapse. -/
def connectG (s : GraphSt) (a b : ℕ) : GraphSt :=
  { s with edges := insert (a, b) s.edges }

/-- `a.disconnect(b)`: fails (native no-such-connection error) when the
    edge is not currently connected. -/
def disconnectG (s : GraphSt) (a b : ℕ) : Option GraphSt :=
  if (a, b) ∈ s.edges then
    some { s with edges := s.edges.erase (a, b), dlog := s.dlog ++ [(a, b)] }
  else none

/-- First half of `setExternalNodes`: rewire `connector → firstNode`. -/
def setFirstPart (s : GraphSt) (firstNode : ℕ) : Option GraphSt :=
  if s.firstNode = some firstNode then some s
  else
    let r := match s.firstNode with
      | some f => disconnectG s connector f
      | none => disconnectG s connector destination
    match r with
    | none => none
    | some s1 => some (connectG { s1 with firstNode := some firstNode } connector firstNode)

/-- Second half of `setExternalNodes`: rewire `lastNode → destination`. -/
def setLastPart (s : GraphSt) (lastNode : ℕ) : Option GraphSt :=
  if s.lastNode = some lastNode then some s
  else
    let r := match s.lastNode with
      | some l => disconnectG s l destination
      | none => some s
    match r with
    | none => none
    | some s1 => some (connectG { s1 with lastNode := some lastNode } lastNode destination)

/-- `setExternalNodes(firstNode, lastNode?)` with a non-null `firstNode`. -/
def setExternalNodes (s : GraphSt) (firstNode : ℕ) (lastNodeOpt : Option ℕ) : Option GraphSt :=
  let lastNode := lastNodeOpt.getD firstNode
  match setFirstPart s firstNode with
  | none => none
  | some s1 => setLastPart s1 lastNode

/-- `clearExternalNodes()`. -/
def clearExternalNodes (s : GraphSt) : Option GraphSt :=
  let r1 : Option GraphSt :=
    match s.firstNode with
    | some f =>
      match disconnectG s connector f with
      | none => none
      | some s1 => some { s1 with firstNode := none }
    | none => some s
  match r1 with
  | none => none
  | some s1 =>
    let r2 : Option GraphSt :=
      match s1.lastNode with
      | some l =>
        match disconnectG s1 l destination with
        | none => none
        | some s2 => some { s2 with lastNode := none }
      | none => some s1
    match r2 with
    | none => none
    | some s2 => some (connectG s2 connector destination)

/-- A call to the external-chain API with a non-null required argument. -/
inductive ExtOp
  | set (firstNode : ℕ) (lastNode : Option ℕ)
  | clear
deriving DecidableEq

/-- One API call; failures propagate. -/
def extStep : Option GraphSt → ExtOp → Option GraphSt
  | none, _ => none
  | some s, ExtOp.set f l => setExternalNodes s f l
  | some s, ExtOp.clear => clearExternalNodes s

/-- A sequence of external-chain API calls. -/
def runExtOps (s : GraphSt) (ops : List ExtOp) : Option GraphSt :=
  ops.foldl extStep (some s)

/-- The graph as `_initializeNodes` leaves it: `connector → destination`. -/
def graphInit : GraphSt :=
  { edges := {(connector, destination)}, firstNode := none, lastNode := none, dlog := [] }

/-- An external node distinct from the internal connector and the destination. -/
def nodeOk (n : ℕ) : Prop := n ≠ connector ∧ n ≠ destination

instance (n : ℕ) : Decidable (nodeOk n) := by unfold nodeOk; infer_instance

/-- A call whose node arguments are proper external nodes. -/
def extOk : ExtOp → Prop
  | ExtOp.set f l => nodeOk f ∧ nodeOk (l.getD f)
  | ExtOp.clear => True

instance (op : ExtOp) : Decidable (extOk op) := by
  cases op <;> unfold extOk <;> infer_instance

/-- Reachable shapes of the node graph: either no chain is installed and the
    connector feeds the destination, or a chain `(f, l)` is installed and the
    edges are exactly `connector → f` and `l → destination`. -/
def extInv (s : GraphSt) : Prop :=
  match s.firstNode, s.lastNode with
  | none, none => s.edges = {(connector, destination)}
  | some f, some l => nodeOk f ∧ nodeOk l ∧ s.edges = {(connector, f), (l, destination)}
  | _, _ => False

/-!
## The playback controller (graph backend)

One `World` value holds the instance's private fields, the relevant manager
state (the global volume, the suspended flag and the shared context clock), the
backend source handle, and observation logs: the lifecycle events fired,
the `source.start` calls issued, and a count of `source.stop` calls.
-/

/-- The playback states. -/
inductive PState
  | playing
  | paused
  | stopped
deriving DecidableEq

/-- Lifecycle events fired on the instance. -/
inductive Ev
  | evReady
  | evPlay
  | evPause
  | evResume
  | evStop
  | evEnd
deriving DecidableEq

/-- A sound resource: its duration and whether a decoded buffer exists. -/
structure Sound where
  duration : ℚ
  hasBuffer : Bool
deriving DecidableEq

/-- A backend buffer source (`AudioBufferSourceNode`). -/
structure Src where
  playbackRate : ℚ
  loop : Bool
  loopStart : ℚ
  loopEnd : Option ℚ
deriving DecidableEq

/-- The whole observable state: manager + instance + logs. -/
@[ext]
structure World where
  mgrVolume : ℚ
  mgrSuspended : Bool
  time : ℚ
  _volume : ℚ
  _pitch : ℚ
  _loop : Bool
  _sound : Option Sound
  _state : PState
  _suspended : Bool
  _suspendEndEvent : Bool
  _suspendInstanceEvents : Bool
  _startTime : ℚ
  _duration : ℚ
  _startedAt : ℚ
  _startOffset : Option ℚ
  _currentTime : ℚ
  _calculatedCurrentTimeAt : ℚ
  _playWhenLoaded : Bool
  source : Option Src
  gainValue : ℚ
  subscribed : Bool
  events : List Ev
  startLog : List (ℚ × Option ℚ)
  nativeStops : ℕ
deriving DecidableEq

/-- `this.fire(e)` guarded by `_suspendInstanceEvents`. -/
def fireIf (w : World) (e : Ev) : World :=
  if w._suspendInstanceEvents then w else { w with events := w.events ++ [e] }

/-- `this.fire(e)` with no guard (the 'end' event). -/
def fireAlways (w : World) (e : Ev) : World :=
  { w with events := w.events ++ [e] }

/-- The `duration` property getter
    (`_duration ? capTime(_duration, _sound.duration) : _sound.duration`). -/
def durationGet (w : World) : ℚ :=
  match w._sound with
  | none => 0
  | some snd => if w._duration ≠ 0 then capTime w._duration snd.duration
                else snd.duration

/-- `this._sound.duration`. -/
def sndDur (w : World) : ℚ :=
  match w._sound with
  | none => 0
  | some snd => snd.duration

/-- The `volume` property setter. -/
def setVolume (w : World) (v : ℚ) : World :=
  let v2 := clamp v 0 1
  { w with _volume := v2, gainValue := v2 * w.mgrVolume }

/-- The `pitch` property setter: first re-integrates the stored position at
    the old pitch up to now, then clamps and forwards the new pitch. -/
def setPitch (w : World) (p : ℚ) : World :=
  let w1 :=
    if w._calculatedCurrentTimeAt ≠ 0 then
      { w with
        _currentTime :=
          capTime (w._currentTime + (w.time - w._calculatedCurrentTimeAt) * w._pitch)
            (durationGet w),
        _calculatedCurrentTimeAt := w.time }
    else w
  let np := max p (1 / 100)
  { w1 with _pitch := np, source := w1.source.map fun s => { s with playbackRate := np } }

/-- The `loop` property setter. -/
def setLoop (w : World) (b : Bool) : World :=
  { w with _loop := b, source := w.source.map fun s => { s with loop := b } }

/-- `_createSource`: builds a fresh backend source when a decoded buffer
    exists (otherwise `this.source` is left untouched). -/
def createSource (w : World) : World :=
  match w._sound with
  | none => w
  | some snd =>
    if snd.hasBuffer then
      let ls := capTime w._startTime snd.duration
      let src : Src :=
        { playbackRate := 1, loop := false, loopStart := ls,
          loopEnd :=
            if w._duration ≠ 0 then
              some (max ls (capTime (w._startTime + w._duration) snd.duration))
            else none }
      fireIf { w with source := some src } Ev.evReady
    else w

/-- `source.start(0, offset[, duration])`, recorded in the log. -/
def sourceStart (w : World) (offset : ℚ) (dur : Option ℚ) : World :=
  { w with startLog := w.startLog ++ [(offset, dur)] }

/-- `source.stop(0)`, counted. -/
def sourceStop (w : World) : World :=
  { w with nativeStops := w.nativeStops + 1 }

/-- `stop()`. -/
def stopFn (w : World) : World × Bool :=
  if w._state = PState.stopped ∨ w.source = none then (w, false)
  else
    let w1 := { w with subscribed := false, _startedAt := 0, _startOffset := none,
                       _playWhenLoaded := false, _suspendEndEvent := true }
    let w2 := if w1._state = PState.playing then sourceStop w1 else w1
    let w3 := createSource { w2 with _state := PState.stopped }
    (fireIf w3 Ev.evStop, true)

/-- `pause()`. -/
def pauseFn (w : World) : World × Bool :=
  if w._state ≠ PState.playing ∨ w.source = none then (w, false)
  else
    let w1 := { w with _state := PState.paused }
    let w2 := { w1 with
      _currentTime :=
        capTime (w1._currentTime + (w1.time - w1._calculatedCurrentTimeAt) * w1._pitch)
          (durationGet w1),
      _calculatedCurrentTimeAt := w1.time }
    let w3 := createSource (sourceStop { w2 with _suspendEndEvent := true })
    let w4 := { w3 with _playWhenLoaded := false, _startOffset := none }
    (fireIf w4 Ev.evPause, true)

/-- Manager 'suspend' handler. -/
def onManagerSuspend (w : World) : World :=
  if w._state = PState.playing ∧ w._suspended = false then
    (pauseFn { w with _suspended := true }).1
  else w

/-- `play()`. -/
def playFn (w : World) : World × Bool :=
  let w0 := if w._state ≠ PState.stopped then (stopFn w).1 else w
  match w0.source with
  | none => (w0, false)
  | some _ =>
    let offset1 := capTime ((w0._startOffset).getD 0) (durationGet w0)
    let offset := capTime (w0._startTime + offset1) (sndDur w0)
    let w1 := { w0 with _startOffset := none }
    let w2 := sourceStart w1 offset
      (if w1._duration ≠ 0 then some w1._duration else none)
    let w3 := { w2 with _startedAt := w2.time - offset,
                        _currentTime := 0, _calculatedCurrentTimeAt := w2.time,
                        _state := PState.playing, _playWhenLoaded := false }
    let w4 := setPitch (setLoop (setVolume w3 w3._volume) w3._loop) w3._pitch
    let w5 := { w4 with subscribed := true }
    let w6 := if w5.mgrSuspended then onManagerSuspend w5 else w5
    (fireIf w6 Ev.evPlay, true)

/-- `resume()`. -/
def resumeFn (w : World) : World × Bool :=
  if w._state ≠ PState.paused ∨ w.source = none then (w, false)
  else
    let offs : ℚ × World :=
      match w._startOffset with
      | some so =>
        (capTime (w._startTime + capTime so (durationGet w)) (sndDur w),
         { w with _startOffset := none })
      | none => (capTime (w._startTime + w._currentTime) (sndDur w), w)
    let w1 := offs.2
    let w2 := sourceStart w1 offs.1
      (if w1._duration ≠ 0 then some w1._duration else none)
    let w3 := { w2 with _state := PState.playing }
    let w4 := setPitch (setLoop (setVolume w3 w3._volume) w3._loop) w3._pitch
    (fireIf { w4 with _playWhenLoaded := false } Ev.evResume, true)

/-- Manager 'resume' handler. -/
def onManagerResume (w : World) : World :=
  if w._suspended then (resumeFn { w with _suspended := false }).1 else w

/-- Manager 'volumechange' handler. -/
def onManagerVolumeChange (w : World) : World := setVolume w w._volume

/-- Manager 'destroy' handler: stops and drops the source while playing. -/
def onManagerDestroy (w : World) : World :=
  if w.source ≠ none ∧ w._state = PState.playing then
    { sourceStop w with source := none }
  else w

/-- `_onEnded`: the natural-end notification handler. -/
def onEnded (w : World) : World :=
  if w._suspendEndEvent then { w with _suspendEndEvent := false }
  else (stopFn (fireAlways w Ev.evEnd)).1

/-- The `currentTime` getter; returns the value read and the mutated _state. -/
def currentTimeGet (w : World) : ℚ × World :=
  match w._startOffset with
  | some so => (so, w)
  | none =>
    if w._state = PState.stopped ∨ w.source = none then (0, w)
    else if w._state = PState.paused then (w._currentTime, w)
    else
      let ct := capTime (w._currentTime + (w.time - w._calculatedCurrentTimeAt) * w._pitch)
        (durationGet w)
      (ct, { w with _currentTime := ct, _calculatedCurrentTimeAt := w.time })

/-- The `currentTime` setter. -/
def currentTimeSetFn (w : World) (v : ℚ) : World :=
  if v < 0 then w
  else if w._state = PState.playing then
    let w1 := (stopFn w).1
    let susp := w1._suspendInstanceEvents
    let w2 := { w1 with _suspendInstanceEvents := true, _startOffset := some v }
    let w3 := (playFn w2).1
    { w3 with _suspendInstanceEvents := susp }
  else
    { w with _startOffset := some v, _currentTime := v, _calculatedCurrentTimeAt := w.time }

/-- The `_startTime` property setter. -/
def setStartTimeFn (w : World) (v : ℚ) : World :=
  let w1 := { w with _startTime := max 0 v }
  let w2 := (stopFn w1).1
  if w1._state = PState.playing then (playFn w2).1 else w2

/-- The `duration` property setter. -/
def setDurationFn (w : World) (v : ℚ) : World :=
  let w1 := { w with _duration := max 0 v }
  let w2 := (stopFn w1).1
  if w1._state = PState.playing then (playFn w2).1 else w2

/-- The `_sound` property setter (swapping in a new resource). -/
def setSoundFn (w : World) (snd : Sound) : World :=
  let w1 := { w with _sound := some snd }
  if w1._state ≠ PState.stopped then (stopFn w1).1 else createSource w1

/-- A public operation, a manager broadcast, an asynchronous natural-end
    notification, or the passage of clock time. -/
inductive Op
  | play
  | pause
  | resume
  | stop
  | setVolume (v : ℚ)
  | setPitch (p : ℚ)
  | setLoop (b : Bool)
  | setStartTime (v : ℚ)
  | setDuration (v : ℚ)
  | setCurrentTime (v : ℚ)
  | setSound (snd : Sound)
  | mgrSetVolume (v : ℚ)
  | mgrSuspend
  | mgrResume
  | mgrDestroy
  | ended
  | tick (dt : ℚ)
deriving DecidableEq

/-- One step of the operational semantics.  Manager broadcasts reach the
    instance only while it is subscribed (between `play` and `stop`). -/
def step (w : World) : Op → World
  | Op.play => (playFn w).1
  | Op.pause => (pauseFn w).1
  | Op.resume => (resumeFn w).1
  | Op.stop => (stopFn w).1
  | Op.setVolume v => setVolume w v
  | Op.setPitch p => setPitch w p
  | Op.setLoop b => setLoop w b
  | Op.setStartTime v => setStartTimeFn w v
  | Op.setDuration v => setDurationFn w v
  | Op.setCurrentTime v => currentTimeSetFn w v
  | Op.setSound snd => setSoundFn w snd
  | Op.mgrSetVolume v =>
    let w1 := { w with mgrVolume := v }
    if w1.subscribed then onManagerVolumeChange w1 else w1
  | Op.mgrSuspend =>
    let w1 := { w with mgrSuspended := true }
    if w1.subscribed then onManagerSuspend w1 else w1
  | Op.mgrResume =>
    let w1 := { w with mgrSuspended := false }
    if w1.subscribed then onManagerResume w1 else w1
  | Op.mgrDestroy => if w.subscribed then onManagerDestroy w else w
  | Op.ended => onEnded w
  | Op.tick dt => { w with time := w.time + dt }

/-- Run a list of operations. -/
def run (w : World) (ops : List Op) : World := ops.foldl step w

/-- The constructor: options are clamped, _state starts `stopped`, and
    `_createSource` runs once. -/
def initWorld (snd : Option Sound) (_volume pit : ℚ) (lp : Bool) (st du : ℚ)
    (mgrVol : ℚ) (mgrSusp : Bool) (t0 : ℚ) : World :=
  createSource
    { mgrVolume := mgrVol, mgrSuspended := mgrSusp, time := t0,
      _volume := clamp _volume 0 1, _pitch := max (1 / 100) pit, _loop := lp,
      _sound := snd, _state := PState.stopped,
      _suspended := false, _suspendEndEvent := false, _suspendInstanceEvents := false,
      _startTime := max 0 st, _duration := max 0 du,
      _startedAt := 0, _startOffset := none,
      _currentTime := 0, _calculatedCurrentTimeAt := 0,
      _playWhenLoaded := true, source := none, gainValue := 1,
      subscribed := false, events := [], startLog := [], nativeStops := 0 }

/-- The claimed invariant: a non-stopped instance has a backend source. -/
def srcInv (w : World) : Prop := w._state ≠ PState.stopped → w.source ≠ none

instance (w : World) : Decidable (srcInv w) := by unfold srcInv; infer_instance

/-- Follows the spec's words, for comparison with the `duration` getter:
    `effectiveDuration = _duration>0 ? min(_duration,
    resourceDuration-_startTime) : resourceDuration`. -/
def effectiveDurationSpec (w : World) : ℚ :=
  match w._sound with
  | none => 0
  | some snd =>
    if 0 < w._duration then min w._duration (snd.duration - w._startTime)
    else snd.duration

/-- A ready ten-second _sound. -/
def snd10 : Sound := { duration := 10, hasBuffer := true }

/-- A ready instance on a ten-second _sound, full window, defaults. -/
def wBase : World := initWorld (some snd10) 1 1 false 0 0 1 false 0

/-- A ready instance with `_startTime = 8`, `duration = 5` on a ten-second
    _sound: the window overruns the resource end. -/
def wOverrun : World := initWorld (some snd10) 1 1 false 8 5 1 false 0

/-- A ready instance with `_startTime = 2`, `duration = 3` (window inside
    the resource). -/
def wWindow : World := initWorld (some snd10) 1 1 false 2 3 1 false 0

/-!
## Arithmetic facts about `capTime`
-/

lemma capTime_zero_right (t : ℚ) : capTime t 0 = 0 := by
  unfold capTime jsRem jsFalsyOr
  simp

lemma capTime_of_ne (t d : ℚ) (hd : d ≠ 0) :
    capTime t d = t - d * jsTrunc (t / d) := by
  unfold capTime jsRem
  rw [if_neg hd]
  simp only [jsFalsyOr]
  split_ifs with h
  · exact h.symm
  · rfl

lemma jsTrunc_of_nonneg {x : ℚ} (hx : 0 ≤ x) : jsTrunc x = ⌊x⌋ := by
  unfold jsTrunc; rw [if_pos hx]

lemma capTime_eq_ratMod {t d : ℚ} (ht : 0 ≤ t) (hd : 0 < d) :
    capTime t d = ratMod t d := by
  rw [capTime_of_ne t d (ne_of_gt hd), ratMod,
    jsTrunc_of_nonneg (div_nonneg ht (le_of_lt hd))]

lemma ratMod_nonneg (a : ℚ) {b : ℚ} (hb : 0 < b) : 0 ≤ ratMod a b := by
  unfold ratMod
  have h1 : (⌊a / b⌋ : ℚ) ≤ a / b := Int.floor_le _
  have h2 : b * (⌊a / b⌋ : ℚ) ≤ b * (a / b) :=
    mul_le_mul_of_nonneg_left h1 (le_of_lt hb)
  rw [mul_div_cancel₀ a (ne_of_gt hb)] at h2
  linarith

lemma ratMod_lt (a : ℚ) {b : ℚ} (hb : 0 < b) : ratMod a b < b := by
  unfold ratMod
  have h1 : a / b < (⌊a / b⌋ : ℚ) + 1 := Int.lt_floor_add_one _
  have h2 : b * (a / b) < b * ((⌊a / b⌋ : ℚ) + 1) :=
    (mul_lt_mul_left hb).mpr h1
  rw [mul_div_cancel₀ a (ne_of_gt hb)] at h2
  nlinarith

lemma ratMod_eq_self {a b : ℚ} (h0 : 0 ≤ a) (hab : a < b) : ratMod a b = a := by
  unfold ratMod
  have hb : 0 < b := lt_of_le_of_lt h0 hab
  have : ⌊a / b⌋ = 0 := by
    rw [Int.floor_eq_zero_iff]
    constructor
    · exact div_nonneg h0 (le_of_lt hb)
    · rw [div_lt_one hb]; exact hab
  rw [this]
  push_cast
  ring

lemma capTime_eq_self {t d : ℚ} (h0 : 0 ≤ t) (htd : t < d) : capTime t d = t := by
  have hd : 0 < d := lt_of_le_of_lt h0 htd
  rw [capTime_eq_ratMod h0 hd, ratMod_eq_self h0 htd]

lemma jsTrunc_zero : jsTrunc 0 = 0 := by
  unfold jsTrunc
  rw [if_pos (le_refl 0)]
  exact Int.floor_zero

lemma capTime_zero_left (d : ℚ) : capTime 0 d = 0 := by
  by_cases hd : d = 0
  · rw [hd]; exact capTime_zero_right 0
  · rw [capTime_of_ne 0 d hd]
    rw [zero_div, jsTrunc_zero]
    push_cast
    ring

lemma jsTrunc_eq_zero {q : ℚ} (h1 : -1 < q) (h2 : q < 1) : jsTrunc q = 0 := by
  unfold jsTrunc
  split
  · next h =>
    rw [Int.floor_eq_zero_iff]
    exact ⟨h, h2⟩
  · next h =>
    push_neg at h
    rw [Int.ceil_eq_zero_iff]
    constructor
    · exact h1
    · exact le_of_lt h

/-- The fractional part left by `jsTrunc` lies in `(-1, 1)`. -/
lemma sub_jsTrunc_bounds (q : ℚ) : -1 < q - jsTrunc q ∧ q - jsTrunc q < 1 := by
  unfold jsTrunc
  split
  · next h =>
    have h1 : (⌊q⌋ : ℚ) ≤ q := Int.floor_le _
    have h2 : q < (⌊q⌋ : ℚ) + 1 := Int.lt_floor_add_one _
    constructor <;> linarith
  · next h =>
    have h1 : q ≤ (⌈q⌉ : ℚ) := Int.le_ceil _
    have h2 : (⌈q⌉ : ℚ) < q + 1 := Int.ceil_lt_add_one _
    constructor <;> linarith

/-- `capTime` is idempotent in its first argument. -/
lemma capTime_capTime (t d : ℚ) : capTime (capTime t d) d = capTime t d := by
  by_cases hd : d = 0
  · rw [hd, capTime_zero_right, capTime_zero_right]
  · by_cases hr : capTime t d = 0
    · rw [hr]; exact capTime_zero_left d
    · rw [capTime_of_ne t d hd] at hr ⊢
      rw [capTime_of_ne _ d hd]
      have hq : t / d * d = t := div_mul_cancel₀ t hd
      set k : ℤ := jsTrunc (t / d) with hk
      have harg : (t - d * k) / d = t / d - k := by
        field_simp
      have hb := sub_jsTrunc_bounds (t / d)
      rw [← hk] at hb
      have : jsTrunc ((t - d * k) / d) = 0 := by
        rw [harg]
        exact jsTrunc_eq_zero hb.1 hb.2
      rw [this]
      push_cast
      ring

/-!
## Behaviour of the external-node adapter on reachable graph shapes
-/

lemma setFirstPart_base {s : GraphSt} (A : ℕ)
    (hf : s.firstNode = none) (he : s.edges = {(connector, destination)}) :
    setFirstPart s A =
      some { s with edges := {(connector, A)}, firstNode := some A,
                    dlog := s.dlog ++ [(connector, destination)] } := by
  unfold setFirstPart
  rw [hf]
  rw [if_neg (by simp)]
  have hmem : (connector, destination) ∈ s.edges := by
    rw [he]; exact Finset.mem_singleton_self _
  simp only [disconnectG, if_pos hmem]
  unfold connectG
  rw [he]
  rw [Finset.erase_singleton]
  simp

lemma setFirstPart_same {s : GraphSt} {A : ℕ} (hf : s.firstNode = some A) :
    setFirstPart s A = some s := by
  unfold setFirstPart
  rw [hf, if_pos rfl]

lemma setFirstPart_chain {s : GraphSt} {f l : ℕ} (A : ℕ)
    (hf : s.firstNode = some f) (hl : s.lastNode = some l)
    (hlo : nodeOk l) (hne : f ≠ A)
    (he : s.edges = {(connector, f), (l, destination)}) :
    setFirstPart s A =
      some { s with edges := {(connector, A), (l, destination)}, firstNode := some A,
                    dlog := s.dlog ++ [(connector, f)] } := by
  unfold setFirstPart
  rw [hf]
  rw [if_neg (by simp [hne])]
  have hmem : (connector, f) ∈ s.edges := by rw [he]; exact Finset.mem_insert_self _ _
  simp only [disconnectG, if_pos hmem]
  unfold connectG
  rw [he]
  have hnotin : (connector, f) ∉ ({(l, destination)} : Finset (ℕ × ℕ)) := by
    simp only [Finset.mem_singleton]
    intro hcon
    exact hlo.1 (congrArg Prod.fst hcon).symm
  rw [Finset.erase_insert hnotin]

lemma setLastPart_none {s : GraphSt} (B : ℕ) (hl : s.lastNode = none) :
    setLastPart s B =
      some { s with edges := insert (B, destination) s.edges, lastNode := some B } := by
  unfold setLastPart
  rw [hl]
  rw [if_neg (by simp)]
  rfl

lemma setLastPart_same {s : GraphSt} {B : ℕ} (hl : s.lastNode = some B) :
    setLastPart s B = some s := by
  unfold setLastPart
  rw [hl, if_pos rfl]

lemma setLastPart_chain {s : GraphSt} {f l : ℕ} (B : ℕ)
    (hl : s.lastNode = some l)
    (hlo : nodeOk l) (hne : l ≠ B)
    (he : s.edges = {(connector, f), (l, destination)}) :
    setLastPart s B =
      some { s with edges := {(connector, f), (B, destination)}, lastNode := some B,
                    dlog := s.dlog ++ [(l, destination)] } := by
  unfold setLastPart
  rw [hl]
  rw [if_neg (by simp [hne])]
  have hmem : (l, destination) ∈ s.edges := by
    rw [he]; exact Finset.mem_insert_of_mem (Finset.mem_singleton_self _)
  simp only [disconnectG, if_pos hmem]
  unfold connectG
  rw [he]
  have hne2 : (connector, f) ≠ (l, destination) := by
    intro hcon
    exact hlo.1 (congrArg Prod.fst hcon).symm
  rw [Finset.erase_insert_of_ne hne2, Finset.erase_singleton, Finset.Insert.comm]
  simp

lemma extInv_init : extInv graphInit := rfl

lemma extInv_of_chain {s : GraphSt} {f l : ℕ}
    (h1 : s.firstNode = some f) (h2 : s.lastNode = some l)
    (hf : nodeOk f) (hl : nodeOk l)
    (h3 : s.edges = {(connector, f), (l, destination)}) : extInv s := by
  unfold extInv
  rw [h1, h2]
  exact ⟨hf, hl, h3⟩

lemma extInv_of_base {s : GraphSt}
    (h1 : s.firstNode = none) (h2 : s.lastNode = none)
    (h3 : s.edges = {(connector, destination)}) : extInv s := by
  unfold extInv
  rw [h1, h2]
  exact h3

/-- On any reachable graph shape, `setExternalNodes` with proper external
    nodes succeeds and installs exactly the edges
    `connector → first` and `last → destination`. -/
lemma setExternalNodes_inv {s : GraphSt} {A : ℕ} {Bo : Option ℕ}
    (hs : extInv s) (hA : nodeOk A) (hB : nodeOk (Bo.getD A)) :
    ∃ s2, setExternalNodes s A Bo = some s2 ∧ s2.firstNode = some A ∧
      s2.lastNode = some (Bo.getD A) ∧
      s2.edges = {(connector, A), (Bo.getD A, destination)} := by
  unfold setExternalNodes
  cases hf : s.firstNode with
  | none =>
    cases hl : s.lastNode with
    | none =>
      have he : s.edges = {(connector, destination)} := by
        unfold extInv at hs
        rw [hf, hl] at hs
        exact hs
      rw [setFirstPart_base A hf he]
      dsimp only
      rw [setLastPart_none _ (by simp [hl])]
      refine ⟨_, rfl, rfl, rfl, ?_⟩
      dsimp only
      exact Finset.pair_comm _ _
    | some l =>
      exfalso
      unfold extInv at hs
      rw [hf, hl] at hs
      exact hs
  | some f =>
    cases hl : s.lastNode with
    | none =>
      exfalso
      unfold extInv at hs
      rw [hf, hl] at hs
      exact hs
    | some l =>
      have hch : nodeOk f ∧ nodeOk l ∧ s.edges = {(connector, f), (l, destination)} := by
        unfold extInv at hs
        rw [hf, hl] at hs
        exact hs
      obtain ⟨hfo, hlo, he⟩ := hch
      by_cases hfa : f = A
      · subst hfa
        rw [setFirstPart_same hf]
        dsimp only
        by_cases hlb : l = Bo.getD f
        · subst hlb
          rw [setLastPart_same hl]
          exact ⟨s, rfl, hf, hl, he⟩
        · rw [setLastPart_chain _ hl hlo hlb he]
          exact ⟨_, rfl, hf, rfl, rfl⟩
      · rw [setFirstPart_chain A hf hl hlo hfa he]
        dsimp only
        by_cases hlb : l = Bo.getD A
        · subst hlb
          rw [setLastPart_same (by simp [hl])]
          exact ⟨_, rfl, rfl, by simp [hl], rfl⟩
        · rw [setLastPart_chain _ (by simp [hl]) hlo hlb rfl]
          exact ⟨_, rfl, rfl, rfl, rfl⟩

/-- On any reachable graph shape, `clearExternalNodes` succeeds, restores
    `connector → destination` and nulls both stored references. -/
lemma clearExternalNodes_inv {s : GraphSt} (hs : extInv s) :
    ∃ s2, clearExternalNodes s = some s2 ∧ s2.firstNode = none ∧
      s2.lastNode = none ∧ s2.edges = {(connector, destination)} := by
  unfold clearExternalNodes
  cases hf : s.firstNode with
  | none =>
    cases hl : s.lastNode with
    | none =>
      have he : s.edges = {(connector, destination)} := by
        unfold extInv at hs
        rw [hf, hl] at hs
        exact hs
      dsimp only
      rw [hl]
      refine ⟨_, rfl, hf, hl, ?_⟩
      unfold connectG
      dsimp only
      rw [he]
      simp
    | some l =>
      exfalso
      unfold extInv at hs
      rw [hf, hl] at hs
      exact hs
  | some f =>
    cases hl : s.lastNode with
    | none =>
      exfalso
      unfold extInv at hs
      rw [hf, hl] at hs
      exact hs
    | some l =>
      have hch : nodeOk f ∧ nodeOk l ∧ s.edges = {(connector, f), (l, destination)} := by
        unfold extInv at hs
        rw [hf, hl] at hs
        exact hs
      obtain ⟨hfo, hlo, he⟩ := hch
      have hmem1 : (connector, f) ∈ s.edges := by
        rw [he]; exact Finset.mem_insert_self _ _
      dsimp only
      simp only [disconnectG, if_pos hmem1]
      have hnotin : (connector, f) ∉ ({(l, destination)} : Finset (ℕ × ℕ)) := by
        simp only [Finset.mem_singleton]
        intro hcon
        exact hlo.1 (congrArg Prod.fst hcon).symm
      have her : s.edges.erase (connector, f) = {(l, destination)} := by
        rw [he, Finset.erase_insert hnotin]
      simp only [hl, her]
      have hmem2 : (l, destination) ∈ ({(l, destination)} : Finset (ℕ × ℕ)) :=
        Finset.mem_singleton_self _
      simp only [disconnectG, hmem2, if_pos, Finset.erase_singleton]
      refine ⟨_, rfl, rfl, rfl, ?_⟩
      unfold connectG
      simp

/-- Every sequence of valid external-chain calls succeeds and leaves the
    graph in a reachable shape. -/
lemma runExtOps_inv (ops : List ExtOp) :
    ∀ s : GraphSt, (∀ op ∈ ops, extOk op) → extInv s →
      ∃ s2, runExtOps s ops = some s2 ∧ extInv s2 := by
  induction ops with
  | nil => exact fun s _ hs => ⟨s, rfl, hs⟩
  | cons op rest ih =>
    intro s hok hs
    have hop : extOk op := hok op (List.mem_cons_self _ _)
    have hrest : ∀ o ∈ rest, extOk o := fun o ho => hok o (List.mem_cons_of_mem _ ho)
    cases op with
    | set f l =>
      obtain ⟨s2, hstep, h1, h2, h3⟩ := setExternalNodes_inv hs hop.1 hop.2
      obtain ⟨s3, hrun, hinv⟩ := ih s2 hrest (extInv_of_chain h1 h2 hop.1 hop.2 h3)
      refine ⟨s3, ?_, hinv⟩
      unfold runExtOps at hrun ⊢
      rw [List.foldl_cons]
      simpa [extStep, hstep] using hrun
    | clear =>
      obtain ⟨s2, hstep, h1, h2, h3⟩ := clearExternalNodes_inv hs
      obtain ⟨s3, hrun, hinv⟩ := ih s2 hrest (extInv_of_base h1 h2 h3)
      refine ⟨s3, ?_, hinv⟩
      unfold runExtOps at hrun ⊢
      rw [List.foldl_cons]
      simpa [extStep, hstep] using hrun

/-!
## Field-preservation facts for the controller's helpers
-/

@[simp] lemma fireIf_state (w : World) (e : Ev) : (fireIf w e)._state = w._state := by
  unfold fireIf; split <;> rfl

@[simp] lemma fireIf_source (w : World) (e : Ev) : (fireIf w e).source = w.source := by
  unfold fireIf; split <;> rfl

@[simp] lemma fireIf_suspendEnd (w : World) (e : Ev) :
    (fireIf w e)._suspendEndEvent = w._suspendEndEvent := by
  unfold fireIf; split <;> rfl

@[simp] lemma fireIf_startLog (w : World) (e : Ev) : (fireIf w e).startLog = w.startLog := by
  unfold fireIf; split <;> rfl

@[simp] lemma fireIf_startOffset (w : World) (e : Ev) :
    (fireIf w e)._startOffset = w._startOffset := by
  unfold fireIf; split <;> rfl

@[simp] lemma fireIf_nativeStops (w : World) (e : Ev) :
    (fireIf w e).nativeStops = w.nativeStops := by
  unfold fireIf; split <;> rfl

@[simp] lemma fireAlways_state (w : World) (e : Ev) : (fireAlways w e)._state = w._state := rfl

@[simp] lemma fireAlways_source (w : World) (e : Ev) : (fireAlways w e).source = w.source := rfl

@[simp] lemma fireAlways_suspendEnd (w : World) (e : Ev) :
    (fireAlways w e)._suspendEndEvent = w._suspendEndEvent := rfl

@[simp] lemma fireAlways_events (w : World) (e : Ev) :
    (fireAlways w e).events = w.events ++ [e] := rfl

@[simp] lemma setVolume_state (w : World) (v : ℚ) : (setVolume w v)._state = w._state := rfl

@[simp] lemma setVolume_source (w : World) (v : ℚ) : (setVolume w v).source = w.source := rfl

@[simp] lemma setVolume_suspendEnd (w : World) (v : ℚ) :
    (setVolume w v)._suspendEndEvent = w._suspendEndEvent := rfl

@[simp] lemma setVolume_startLog (w : World) (v : ℚ) :
    (setVolume w v).startLog = w.startLog := rfl

@[simp] lemma setVolume_startOffset (w : World) (v : ℚ) :
    (setVolume w v)._startOffset = w._startOffset := rfl

@[simp] lemma setVolume_events (w : World) (v : ℚ) : (setVolume w v).events = w.events := rfl

@[simp] lemma setVolume_nativeStops (w : World) (v : ℚ) :
    (setVolume w v).nativeStops = w.nativeStops := rfl

@[simp] lemma setLoop_state (w : World) (b : Bool) : (setLoop w b)._state = w._state := rfl

@[simp] lemma setLoop_source (w : World) (b : Bool) :
    (setLoop w b).source = w.source.map fun s => { s with loop := b } := rfl

@[simp] lemma setLoop_suspendEnd (w : World) (b : Bool) :
    (setLoop w b)._suspendEndEvent = w._suspendEndEvent := rfl

@[simp] lemma setLoop_startLog (w : World) (b : Bool) : (setLoop w b).startLog = w.startLog := rfl

@[simp] lemma setLoop_startOffset (w : World) (b : Bool) :
    (setLoop w b)._startOffset = w._startOffset := rfl

@[simp] lemma setLoop_events (w : World) (b : Bool) : (setLoop w b).events = w.events := rfl

@[simp] lemma setLoop_nativeStops (w : World) (b : Bool) :
    (setLoop w b).nativeStops = w.nativeStops := rfl

@[simp] lemma setPitch_state (w : World) (p : ℚ) : (setPitch w p)._state = w._state := by
  unfold setPitch; dsimp only; split <;> rfl

@[simp] lemma setPitch_source (w : World) (p : ℚ) :
    (setPitch w p).source = w.source.map
      fun s => { s with playbackRate := max p (1 / 100) } := by
  unfold setPitch; dsimp only; split <;> rfl

@[simp] lemma setPitch_suspendEnd (w : World) (p : ℚ) :
    (setPitch w p)._suspendEndEvent = w._suspendEndEvent := by
  unfold setPitch; dsimp only; split <;> rfl

@[simp] lemma setPitch_startLog (w : World) (p : ℚ) :
    (setPitch w p).startLog = w.startLog := by
  unfold setPitch; dsimp only; split <;> rfl

@[simp] lemma setPitch_startOffset (w : World) (p : ℚ) :
    (setPitch w p)._startOffset = w._startOffset := by
  unfold setPitch; dsimp only; split <;> rfl

@[simp] lemma setPitch_events (w : World) (p : ℚ) : (setPitch w p).events = w.events := by
  unfold setPitch; dsimp only; split <;> rfl

@[simp] lemma setPitch_nativeStops (w : World) (p : ℚ) :
    (setPitch w p).nativeStops = w.nativeStops := by
  unfold setPitch; dsimp only; split <;> rfl

@[simp] lemma sourceStart_state (w : World) (o : ℚ) (d : Option ℚ) :
    (sourceStart w o d)._state = w._state := rfl

@[simp] lemma sourceStart_source (w : World) (o : ℚ) (d : Option ℚ) :
    (sourceStart w o d).source = w.source := rfl

@[simp] lemma sourceStart_suspendEnd (w : World) (o : ℚ) (d : Option ℚ) :
    (sourceStart w o d)._suspendEndEvent = w._suspendEndEvent := rfl

@[simp] lemma sourceStart_startLog (w : World) (o : ℚ) (d : Option ℚ) :
    (sourceStart w o d).startLog = w.startLog ++ [(o, d)] := rfl

@[simp] lemma sourceStart_startOffset (w : World) (o : ℚ) (d : Option ℚ) :
    (sourceStart w o d)._startOffset = w._startOffset := rfl

@[simp] lemma sourceStop_state (w : World) : (sourceStop w)._state = w._state := rfl

@[simp] lemma sourceStop_source (w : World) : (sourceStop w).source = w.source := rfl

@[simp] lemma sourceStop_suspendEnd (w : World) :
    (sourceStop w)._suspendEndEvent = w._suspendEndEvent := rfl

@[simp] lemma sourceStop_startLog (w : World) : (sourceStop w).startLog = w.startLog := rfl

@[simp] lemma sourceStop_startOffset (w : World) :
    (sourceStop w)._startOffset = w._startOffset := rfl

@[simp] lemma sourceStop_events (w : World) : (sourceStop w).events = w.events := rfl

@[simp] lemma createSource_state (w : World) : (createSource w)._state = w._state := by
  unfold createSource
  cases w._sound with
  | none => rfl
  | some snd =>
    dsimp only
    split
    · rw [fireIf_state]
    · rfl

@[simp] lemma createSource_suspendEnd (w : World) :
    (createSource w)._suspendEndEvent = w._suspendEndEvent := by
  unfold createSource
  cases w._sound with
  | none => rfl
  | some snd =>
    dsimp only
    split
    · rw [fireIf_suspendEnd]
    · rfl

@[simp] lemma createSource_startLog (w : World) : (createSource w).startLog = w.startLog := by
  unfold createSource
  cases w._sound with
  | none => rfl
  | some snd =>
    dsimp only
    split
    · rw [fireIf_startLog]
    · rfl

@[simp] lemma createSource_startOffset (w : World) :
    (createSource w)._startOffset = w._startOffset := by
  unfold createSource
  cases w._sound with
  | none => rfl
  | some snd =>
    dsimp only
    split
    · rw [fireIf_startOffset]
    · rfl

@[simp] lemma createSource_nativeStops (w : World) :
    (createSource w).nativeStops = w.nativeStops := by
  unfold createSource
  cases w._sound with
  | none => rfl
  | some snd =>
    dsimp only
    split
    · rw [fireIf_nativeStops]
    · rfl

lemma createSource_source_ne {w : World} (h : w.source ≠ none) :
    (createSource w).source ≠ none := by
  unfold createSource
  cases w._sound with
  | none => exact h
  | some snd =>
    dsimp only
    split
    · rw [fireIf_source]; simp
    · exact h

lemma setLoop_source_ne {w : World} (b : Bool) (h : w.source ≠ none) :
    (setLoop w b).source ≠ none := by
  rw [setLoop_source]
  obtain ⟨s, hs⟩ := Option.ne_none_iff_exists'.mp h
  rw [hs]
  simp

lemma setPitch_source_ne {w : World} (p : ℚ) (h : w.source ≠ none) :
    (setPitch w p).source ≠ none := by
  rw [setPitch_source]
  obtain ⟨s, hs⟩ := Option.ne_none_iff_exists'.mp h
  rw [hs]
  simp

/-!
## Preservation of the source invariant
-/

lemma srcInv_of_stopped {w : World} (h : w._state = PState.stopped) : srcInv w :=
  fun hcon => absurd h hcon

lemma srcInv_of_source {w : World} (h : w.source ≠ none) : srcInv w := fun _ => h

lemma stop_id_or_stopped (w : World) :
    (stopFn w).1 = w ∨ ((stopFn w).1)._state = PState.stopped := by
  unfold stopFn
  split
  · left; rfl
  · right
    dsimp only
    rw [fireIf_state, createSource_state]

lemma stop_srcInv {w : World} (h : srcInv w) : srcInv ((stopFn w).1) := by
  rcases stop_id_or_stopped w with hc | hc
  · rw [hc]; exact h
  · exact srcInv_of_stopped hc

lemma pause_source_ne {w : World} (h : w.source ≠ none) : ((pauseFn w).1).source ≠ none := by
  unfold pauseFn
  split
  · exact h
  · dsimp only
    rw [fireIf_source]
    exact createSource_source_ne h

lemma pause_srcInv {w : World} (h : srcInv w) : srcInv ((pauseFn w).1) := by
  by_cases hg : w._state ≠ PState.playing ∨ w.source = none
  · have hid : (pauseFn w).1 = w := by unfold pauseFn; rw [if_pos hg]
    rw [hid]; exact h
  · push_neg at hg
    exact srcInv_of_source (pause_source_ne hg.2)

lemma onManagerSuspend_source_ne {w : World} (h : w.source ≠ none) :
    (onManagerSuspend w).source ≠ none := by
  unfold onManagerSuspend
  split
  · exact pause_source_ne h
  · exact h

lemma onManagerSuspend_srcInv {w : World} (h : srcInv w) : srcInv (onManagerSuspend w) := by
  unfold onManagerSuspend
  split
  · exact pause_srcInv h
  · exact h

lemma ite_source_ne {c : Prop} [Decidable c] {a b : World}
    (ha : a.source ≠ none) (hb : b.source ≠ none) :
    (if c then a else b).source ≠ none := by
  split
  · exact ha
  · exact hb

lemma ite_flag_true {c : Prop} [Decidable c] {a b : World}
    (ha : a._suspendEndEvent = true) (hb : b._suspendEndEvent = true) :
    (if c then a else b)._suspendEndEvent = true := by
  split
  · exact ha
  · exact hb

lemma play_srcInv {w : World} (h : srcInv w) : srcInv ((playFn w).1) := by
  unfold playFn
  dsimp only
  set w0 := if w._state ≠ PState.stopped then (stopFn w).1 else w with hw0
  have h0 : srcInv w0 := by
    rw [hw0]; split
    · exact stop_srcInv h
    · exact h
  cases hs : w0.source with
  | none => exact h0
  | some s =>
    apply srcInv_of_source
    rw [fireIf_source]
    apply ite_source_ne
    · apply onManagerSuspend_source_ne
      apply setPitch_source_ne
      apply setLoop_source_ne
      rw [setVolume_source, sourceStart_source]
      simp
    · apply setPitch_source_ne
      apply setLoop_source_ne
      rw [setVolume_source, sourceStart_source]
      simp

lemma resume_source_ne {w : World} (h : w.source ≠ none) : ((resumeFn w).1).source ≠ none := by
  unfold resumeFn
  split
  · exact h
  · dsimp only
    rw [fireIf_source]
    apply setPitch_source_ne
    apply setLoop_source_ne
    rw [setVolume_source, sourceStart_source]
    cases hso : w._startOffset <;> simpa [hso] using h

lemma resume_srcInv {w : World} (h : srcInv w) : srcInv ((resumeFn w).1) := by
  by_cases hg : w._state ≠ PState.paused ∨ w.source = none
  · have hid : (resumeFn w).1 = w := by unfold resumeFn; rw [if_pos hg]
    rw [hid]; exact h
  · push_neg at hg
    exact srcInv_of_source (resume_source_ne hg.2)

lemma onManagerResume_srcInv {w : World} (h : srcInv w) : srcInv (onManagerResume w) := by
  unfold onManagerResume
  split
  · exact resume_srcInv h
  · exact h

lemma onEnded_srcInv {w : World} (h : srcInv w) : srcInv (onEnded w) := by
  unfold onEnded
  split
  · exact h
  · exact stop_srcInv h

lemma currentTimeSet_srcInv {w : World} (v : ℚ) (h : srcInv w) :
    srcInv (currentTimeSetFn w v) := by
  unfold currentTimeSetFn
  split
  · exact h
  · split
    · exact play_srcInv (stop_srcInv h)
    · exact h

lemma setStartTime_srcInv {w : World} (v : ℚ) (h : srcInv w) :
    srcInv (setStartTimeFn w v) := by
  unfold setStartTimeFn
  dsimp only
  split
  · exact play_srcInv (stop_srcInv h)
  · exact stop_srcInv h

lemma setDuration_srcInv {w : World} (v : ℚ) (h : srcInv w) :
    srcInv (setDurationFn w v) := by
  unfold setDurationFn
  dsimp only
  split
  · exact play_srcInv (stop_srcInv h)
  · exact stop_srcInv h

lemma setSound_srcInv {w : World} (snd : Sound) (h : srcInv w) :
    srcInv (setSoundFn w snd) := by
  unfold setSoundFn
  dsimp only
  split
  · exact stop_srcInv h
  · next hgg =>
    push_neg at hgg
    intro hcon
    rw [createSource_state] at hcon
    exact absurd hgg hcon

lemma setPitch_srcInv {w : World} (p : ℚ) (h : srcInv w) : srcInv (setPitch w p) := by
  intro hcon
  rw [setPitch_state] at hcon
  exact setPitch_source_ne p (h hcon)

lemma setLoop_srcInv {w : World} (b : Bool) (h : srcInv w) : srcInv (setLoop w b) := by
  intro hcon
  rw [setLoop_state] at hcon
  exact setLoop_source_ne b (h hcon)

/-- Every operation other than the manager's destroy broadcast preserves
    the claimed source invariant. -/
lemma step_srcInv {w : World} (op : Op) (hop : op ≠ Op.mgrDestroy) (h : srcInv w) :
    srcInv (step w op) := by
  cases op with
  | play => exact play_srcInv h
  | pause => exact pause_srcInv h
  | resume => exact resume_srcInv h
  | stop => exact stop_srcInv h
  | setVolume v => exact h
  | setPitch p => exact setPitch_srcInv p h
  | setLoop b => exact setLoop_srcInv b h
  | setStartTime v => exact setStartTime_srcInv v h
  | setDuration v => exact setDuration_srcInv v h
  | setCurrentTime v => exact currentTimeSet_srcInv v h
  | setSound snd => exact setSound_srcInv snd h
  | mgrSetVolume v =>
    unfold step
    dsimp only
    split
    · exact h
    · exact h
  | mgrSuspend =>
    unfold step
    dsimp only
    split
    · exact onManagerSuspend_srcInv h
    · exact h
  | mgrResume =>
    unfold step
    dsimp only
    split
    · exact onManagerResume_srcInv h
    · exact h
  | mgrDestroy => exact absurd rfl hop
  | ended => exact onEnded_srcInv h
  | tick dt => exact h

/-- The source invariant holds along every destroy-free run. -/
lemma run_srcInv (ops : List Op) :
    ∀ w : World, (∀ op ∈ ops, op ≠ Op.mgrDestroy) → srcInv w → srcInv (run w ops) := by
  induction ops with
  | nil => exact fun w _ h => h
  | cons op rest ih =>
    intro w hops h
    have h1 : srcInv (step w op) := step_srcInv op (hops op (List.mem_cons_self _ _)) h
    have := ih (step w op) (fun o ho => hops o (List.mem_cons_of_mem _ ho)) h1
    simpa [run, List.foldl_cons] using this

/-!
## Behaviour of the one-shot end-suppression flag
-/

lemma stop_flag_mono {w : World} (h : w._suspendEndEvent = true) :
    ((stopFn w).1)._suspendEndEvent = true := by
  unfold stopFn
  split
  · exact h
  · dsimp only
    rw [fireIf_suspendEnd, createSource_suspendEnd]
    split <;> rfl

lemma stop_sets_flag {w : World} (hst : w._state ≠ PState.stopped) (hsrc : w.source ≠ none) :
    ((stopFn w).1)._suspendEndEvent = true := by
  unfold stopFn
  rw [if_neg (by rintro (hc | hc) <;> [exact hst hc; exact hsrc hc])]
  dsimp only
  rw [fireIf_suspendEnd, createSource_suspendEnd]
  split <;> rfl

lemma pause_flag_mono {w : World} (h : w._suspendEndEvent = true) :
    ((pauseFn w).1)._suspendEndEvent = true := by
  unfold pauseFn
  split
  · exact h
  · dsimp only
    rw [fireIf_suspendEnd, createSource_suspendEnd, sourceStop_suspendEnd]

lemma pause_sets_flag {w : World} (hst : w._state = PState.playing) (hsrc : w.source ≠ none) :
    ((pauseFn w).1)._suspendEndEvent = true := by
  unfold pauseFn
  rw [if_neg (by rintro (hc | hc) <;> [exact hc hst; exact hsrc hc])]
  dsimp only
  rw [fireIf_suspendEnd, createSource_suspendEnd, sourceStop_suspendEnd]

lemma onManagerSuspend_flag_mono {w : World} (h : w._suspendEndEvent = true) :
    (onManagerSuspend w)._suspendEndEvent = true := by
  unfold onManagerSuspend
  split
  · exact pause_flag_mono h
  · exact h

lemma play_flag_mono {w : World} (h : w._suspendEndEvent = true) :
    ((playFn w).1)._suspendEndEvent = true := by
  unfold playFn
  dsimp only
  set w0 := if w._state ≠ PState.stopped then (stopFn w).1 else w with hw0
  have h0 : w0._suspendEndEvent = true := by
    rw [hw0]; split
    · exact stop_flag_mono h
    · exact h
  cases hs : w0.source with
  | none => exact h0
  | some s =>
    rw [fireIf_suspendEnd]
    apply ite_flag_true
    · apply onManagerSuspend_flag_mono
      rw [setPitch_suspendEnd, setLoop_suspendEnd, setVolume_suspendEnd, sourceStart_suspendEnd]
      exact h0
    · rw [setPitch_suspendEnd, setLoop_suspendEnd, setVolume_suspendEnd, sourceStart_suspendEnd]
      exact h0

lemma resume_flag_mono {w : World} (h : w._suspendEndEvent = true) :
    ((resumeFn w).1)._suspendEndEvent = true := by
  unfold resumeFn
  split
  · exact h
  · dsimp only
    rw [fireIf_suspendEnd, setPitch_suspendEnd, setLoop_suspendEnd, setVolume_suspendEnd,
      sourceStart_suspendEnd]
    cases hso : w._startOffset <;> simpa [hso] using h

lemma onManagerResume_flag_mono {w : World} (h : w._suspendEndEvent = true) :
    (onManagerResume w)._suspendEndEvent = true := by
  unfold onManagerResume
  split
  · exact resume_flag_mono h
  · exact h

lemma currentTimeSet_flag_mono {w : World} (v : ℚ) (h : w._suspendEndEvent = true) :
    (currentTimeSetFn w v)._suspendEndEvent = true := by
  unfold currentTimeSetFn
  split
  · exact h
  · split
    · exact play_flag_mono (stop_flag_mono h)
    · exact h

lemma setStartTime_flag_mono {w : World} (v : ℚ) (h : w._suspendEndEvent = true) :
    (setStartTimeFn w v)._suspendEndEvent = true := by
  unfold setStartTimeFn
  dsimp only
  split
  · exact play_flag_mono (stop_flag_mono h)
  · exact stop_flag_mono h

lemma setDuration_flag_mono {w : World} (v : ℚ) (h : w._suspendEndEvent = true) :
    (setDurationFn w v)._suspendEndEvent = true := by
  unfold setDurationFn
  dsimp only
  split
  · exact play_flag_mono (stop_flag_mono h)
  · exact stop_flag_mono h

lemma setSound_flag_mono {w : World} (snd : Sound) (h : w._suspendEndEvent = true) :
    (setSoundFn w snd)._suspendEndEvent = true := by
  unfold setSoundFn
  dsimp only
  split
  · exact stop_flag_mono h
  · rw [createSource_suspendEnd]; exact h

/-- No operation other than the delivery of a natural-end notification
    clears the suppression flag. -/
lemma step_flag_mono {w : World} (op : Op) (hop : op ≠ Op.ended)
    (h : w._suspendEndEvent = true) : (step w op)._suspendEndEvent = true := by
  cases op with
  | play => exact play_flag_mono h
  | pause => exact pause_flag_mono h
  | resume => exact resume_flag_mono h
  | stop => exact stop_flag_mono h
  | setVolume v => exact h
  | setPitch p => rw [step, setPitch_suspendEnd]; exact h
  | setLoop b => exact h
  | setStartTime v => exact setStartTime_flag_mono v h
  | setDuration v => exact setDuration_flag_mono v h
  | setCurrentTime v => exact currentTimeSet_flag_mono v h
  | setSound snd => exact setSound_flag_mono snd h
  | mgrSetVolume v =>
    unfold step
    dsimp only
    split
    · exact h
    · exact h
  | mgrSuspend =>
    unfold step
    dsimp only
    split
    · exact onManagerSuspend_flag_mono h
    · exact h
  | mgrResume =>
    unfold step
    dsimp only
    split
    · exact onManagerResume_flag_mono h
    · exact h
  | mgrDestroy =>
    show (if w.subscribed then onManagerDestroy w else w)._suspendEndEvent = true
    split
    · unfold onManagerDestroy
      split
      · exact h
      · exact h
    · exact h
  | ended => exact absurd rfl hop
  | tick dt => exact h

/-!
## Characterisations of `play`, `stop`, `_onEnded` and the getter
-/

lemma ite_startLog_eq {c : Prop} [Decidable c] {a b : World} {L : List (ℚ × Option ℚ)}
    (ha : a.startLog = L) (hb : b.startLog = L) : (if c then a else b).startLog = L := by
  split
  · exact ha
  · exact hb

lemma ite_startOffset_none {c : Prop} [Decidable c] {a b : World}
    (ha : a._startOffset = none) (hb : b._startOffset = none) :
    (if c then a else b)._startOffset = none := by
  split
  · exact ha
  · exact hb

lemma pause_startLog (w : World) : ((pauseFn w).1).startLog = w.startLog := by
  unfold pauseFn
  split
  · rfl
  · dsimp only
    rw [fireIf_startLog, createSource_startLog, sourceStop_startLog]

lemma onManagerSuspend_startLog (w : World) : (onManagerSuspend w).startLog = w.startLog := by
  unfold onManagerSuspend
  split
  · exact pause_startLog _
  · rfl

lemma pause_startOffset_of_none {w : World} (h : w._startOffset = none) :
    ((pauseFn w).1)._startOffset = none := by
  unfold pauseFn
  split
  · exact h
  · dsimp only
    rw [fireIf_startOffset]

lemma onManagerSuspend_startOffset_of_none {w : World} (h : w._startOffset = none) :
    (onManagerSuspend w)._startOffset = none := by
  unfold onManagerSuspend
  split
  · exact pause_startOffset_of_none h
  · exact h

/-- `play()` from the Stopped state with a live source: returns true,
    consumes the pending seek, and starts the source at
    `capTime(startTime + capTime(startOffset, duration), resourceDuration)`
    bounded by the window duration. -/
lemma play_from_stopped {w : World} {src : Src}
    (hstate : w._state = PState.stopped) (hsrc : w.source = some src) :
    (playFn w).2 = true ∧
    ((playFn w).1)._startOffset = none ∧
    ((playFn w).1).startLog = w.startLog ++
      [(capTime (w._startTime + capTime ((w._startOffset).getD 0) (durationGet w)) (sndDur w),
        if w._duration ≠ 0 then some w._duration else none)] := by
  unfold playFn
  have h0 : (if w._state ≠ PState.stopped then (stopFn w).1 else w) = w := by
    rw [if_neg (by simp [hstate])]
  rw [h0]
  dsimp only
  rw [hsrc]
  dsimp only
  refine ⟨rfl, ?_, ?_⟩
  · rw [fireIf_startOffset]
    apply ite_startOffset_none
    · apply onManagerSuspend_startOffset_of_none
      rw [setPitch_startOffset, setLoop_startOffset, setVolume_startOffset,
        sourceStart_startOffset]
    · rw [setPitch_startOffset, setLoop_startOffset, setVolume_startOffset,
        sourceStart_startOffset]
  · rw [fireIf_startLog]
    apply ite_startLog_eq
    · rw [onManagerSuspend_startLog, setPitch_startLog, setLoop_startLog, setVolume_startLog,
        sourceStart_startLog]
    · rw [setPitch_startLog, setLoop_startLog, setVolume_startLog, sourceStart_startLog]

/-- `play()` with no backend source: returns false and changes nothing. -/
lemma play_of_no_source {w : World} (h : w.source = none) : playFn w = (w, false) := by
  unfold playFn
  have h0 : (if w._state ≠ PState.stopped then (stopFn w).1 else w) = w := by
    split
    · unfold stopFn; rw [if_pos (Or.inr h)]
    · rfl
  rw [h0]
  dsimp only
  rw [h]

@[simp] lemma fireIf_suspendInstance (w : World) (e : Ev) :
    (fireIf w e)._suspendInstanceEvents = w._suspendInstanceEvents := by
  unfold fireIf; split <;> rfl

@[simp] lemma createSource_suspendInstance (w : World) :
    (createSource w)._suspendInstanceEvents = w._suspendInstanceEvents := by
  unfold createSource
  cases w._sound with
  | none => rfl
  | some snd =>
    dsimp only
    split
    · rw [fireIf_suspendInstance]
    · rfl

lemma fireIf_events_of {w : World} (e : Ev) (h : w._suspendInstanceEvents = false) :
    (fireIf w e).events = w.events ++ [e] := by
  unfold fireIf
  rw [if_neg (by simp [h])]

/-- `_createSource` on a buffered resource: fires 'ready' and installs a
    fresh source. -/
lemma createSource_of_buffer (w : World) {snd : Sound} (hsnd : w._sound = some snd)
    (hbuf : snd.hasBuffer = true) (hsie : w._suspendInstanceEvents = false) :
    (createSource w).events = w.events ++ [Ev.evReady] ∧ (createSource w).source ≠ none := by
  unfold createSource
  rw [hsnd]
  dsimp only
  rw [if_pos hbuf]
  constructor
  · rw [fireIf_events_of _ (by simpa using hsie)]
  · rw [fireIf_source]
    simp

/-- A successful `stop()` from Playing with a buffered resource: counts one
    native source stop, recreates the source (firing 'ready'), fires 'stop',
    and leaves the state Stopped. -/
lemma stop_success_shape {w : World} {snd : Sound}
    (hst : w._state = PState.playing) (hsrc : w.source ≠ none)
    (hsnd : w._sound = some snd) (hbuf : snd.hasBuffer = true)
    (hsie : w._suspendInstanceEvents = false) :
    ((stopFn w).1).events = w.events ++ [Ev.evReady, Ev.evStop] ∧
    ((stopFn w).1)._state = PState.stopped ∧
    ((stopFn w).1).nativeStops = w.nativeStops + 1 ∧
    (stopFn w).2 = true := by
  unfold stopFn
  rw [if_neg (by rintro (hc | hc) <;>
    [exact absurd hst (by rw [hc]; exact fun h => PState.noConfusion h); exact hsrc hc])]
  dsimp only
  rw [if_pos hst]
  have hev := (createSource_of_buffer { sourceStop { w with subscribed := false, _startedAt := 0, _startOffset := none, _playWhenLoaded := false, _suspendEndEvent := true } with _state := PState.stopped } hsnd hbuf hsie).1
  refine ⟨?_, ?_, ?_, rfl⟩
  · rw [fireIf_events_of _ (by rw [createSource_suspendInstance]; exact hsie), hev]
    simp
  · rw [fireIf_state, createSource_state]
  · rw [fireIf_nativeStops, createSource_nativeStops]
    rfl

/-- A suppressed natural end: the flag is consumed and nothing else
    happens. -/
lemma onEnded_suppressed {w : World} (h : w._suspendEndEvent = true) :
    onEnded w = { w with _suspendEndEvent := false } := by
  unfold onEnded
  rw [if_pos h]

lemma onEnded_of_flag_false {w : World} (h : w._suspendEndEvent = false) :
    onEnded w = (stopFn (fireAlways w Ev.evEnd)).1 := by
  unfold onEnded
  rw [if_neg (by simp [h])]

lemma currentTimeGet_of_startOffset (w : World) {so : ℚ} (h : w._startOffset = some so) :
    currentTimeGet w = (so, w) := by
  unfold currentTimeGet
  rw [h]

lemma currentTimeGet_of_stopped (w : World) (h0 : w._startOffset = none)
    (h1 : w._state = PState.stopped ∨ w.source = none) :
    currentTimeGet w = (0, w) := by
  unfold currentTimeGet
  rw [h0]
  dsimp only
  rw [if_pos h1]

lemma currentTimeGet_of_paused (w : World) (h0 : w._startOffset = none)
    (h1 : ¬(w._state = PState.stopped ∨ w.source = none))
    (h2 : w._state = PState.paused) :
    currentTimeGet w = (w._currentTime, w) := by
  unfold currentTimeGet
  rw [h0]
  dsimp only
  rw [if_neg h1, if_pos h2]

lemma currentTimeGet_of_playing (w : World) (h0 : w._startOffset = none)
    (h1 : ¬(w._state = PState.stopped ∨ w.source = none))
    (h2 : ¬w._state = PState.paused) :
    currentTimeGet w =
      (capTime (w._currentTime + (w.time - w._calculatedCurrentTimeAt) * w._pitch)
         (durationGet w),
       { w with
         _currentTime :=
           capTime (w._currentTime + (w.time - w._calculatedCurrentTimeAt) * w._pitch)
             (durationGet w),
         _calculatedCurrentTimeAt := w.time }) := by
  unfold currentTimeGet
  rw [h0]
  dsimp only
  rw [if_neg h1, if_neg h2]

/-- A playing getter read whose checkpoint already equals the clock and
    whose stored position is already capped returns the stored position and
    leaves the state unchanged. -/
lemma currentTimeGet_at_checkpoint (w : World) (h0 : w._startOffset = none)
    (h1 : ¬(w._state = PState.stopped ∨ w.source = none))
    (h2 : ¬w._state = PState.paused)
    (h3 : w._calculatedCurrentTimeAt = w.time)
    (h4 : capTime w._currentTime (durationGet w) = w._currentTime) :
    currentTimeGet w = (w._currentTime, w) := by
  rw [currentTimeGet_of_playing w h0 h1 h2, h3, sub_self, zero_mul, add_zero, h4]
  have hw : ({ w with _currentTime := w._currentTime, _calculatedCurrentTimeAt := w.time } : World) = w := by
    ext <;> first | rfl | exact h3.symm
  rw [hw]

/-- Two consecutive getter reads at a fixed clock instant agree: the second
    read returns the same value and leaves the state unchanged. -/
lemma currentTimeGet_idem (w : World) :
    currentTimeGet ((currentTimeGet w).2) = ((currentTimeGet w).1, (currentTimeGet w).2) := by
  cases hso : w._startOffset with
  | some so =>
    rw [currentTimeGet_of_startOffset w hso]
    exact currentTimeGet_of_startOffset w hso
  | none =>
    by_cases h1 : w._state = PState.stopped ∨ w.source = none
    · rw [currentTimeGet_of_stopped w hso h1]
      exact currentTimeGet_of_stopped w hso h1
    · by_cases h2 : w._state = PState.paused
      · rw [currentTimeGet_of_paused w hso h1 h2]
        exact currentTimeGet_of_paused w hso h1 h2
      · rw [currentTimeGet_of_playing w hso h1 h2]
        apply currentTimeGet_at_checkpoint
        · exact hso
        · exact h1
        · exact h2
        · rfl
        · exact capTime_capTime _ _

lemma initWorld_state (snd : Option Sound) (v p : ℚ) (lp : Bool) (st du mv : ℚ)
    (ms : Bool) (t0 : ℚ) :
    (initWorld snd v p lp st du mv ms t0)._state = PState.stopped := by
  unfold initWorld
  rw [createSource_state]

/-!
## The claims
-/

/-- C9: `capTime(t, d)` returns `0` whenever `d = 0`, for every `t`: the
    JavaScript `%` yields NaN on a zero divisor and the `|| 0` coalesces
    every falsy result (NaN as well as 0) to 0. -/
theorem c9_capTime_zero_divisor (t : ℚ) : capTime t 0 = 0 := capTime_zero_right t

/-- C10: for an instance in the Playing state, two consecutive reads of the
    `currentTime` getter at the same manager clock value return equal
    values and leave identical stored state: the mutating getter is
    observationally idempotent at a fixed clock instant. -/
theorem c10_currentTime_read_idempotent (w : World) (hpl : w._state = PState.playing) :
    currentTimeGet ((currentTimeGet w).2) = ((currentTimeGet w).1, (currentTimeGet w).2) :=
  currentTimeGet_idem w

/-- Witness for C10 at a concrete playing instance. -/
theorem c10_witness :
    (run wBase [Op.play])._state = PState.playing ∧
    currentTimeGet ((currentTimeGet (run wBase [Op.play])).2) =
      ((currentTimeGet (run wBase [Op.play])).1, (currentTimeGet (run wBase [Op.play])).2) :=
  ⟨by with_unfolding_all rfl,
   c10_currentTime_read_idempotent (run wBase [Op.play]) (by with_unfolding_all rfl)⟩

/-- C2 as stated is false: with resource duration 10, `startTime = 8` and
    window duration 5, the `duration` getter returns `capTime(5, 10) = 5`
    while the spec's `min(windowDuration, resourceDuration - startTime)`
    formula gives `min(5, 2) = 2`. -/
theorem c2_counterexample :
    durationGet wOverrun = 5 ∧ effectiveDurationSpec wOverrun = 2 ∧
    durationGet wOverrun ≠ effectiveDurationSpec wOverrun := by
  refine ⟨by with_unfolding_all rfl, by with_unfolding_all rfl, by with_unfolding_all decide⟩

/-- C2 amended: with a sound resource set, the `duration` getter returns
    the resource duration when the window duration is 0, and otherwise
    `windowDuration mod resourceDuration` (via `capTime`); the spec's
    `min(windowDuration, resourceDuration - startTime)` formula agrees
    exactly when the window fits strictly inside the resource
    (`startTime + windowDuration ≤ resourceDuration` and
    `windowDuration < resourceDuration`). -/
theorem c2_duration_getter (w : World) (snd : Sound) (hsnd : w._sound = some snd) :
    (w._duration = 0 → durationGet w = snd.duration) ∧
    (0 < w._duration → 0 < snd.duration →
      durationGet w = ratMod w._duration snd.duration) ∧
    (0 < w._duration → 0 ≤ w._startTime → w._duration < snd.duration →
      w._startTime + w._duration ≤ snd.duration →
      durationGet w = min w._duration (snd.duration - w._startTime) ∧
      durationGet w = effectiveDurationSpec w) := by
  have hD : durationGet w =
      if w._duration ≠ 0 then capTime w._duration snd.duration else snd.duration := by
    unfold durationGet
    rw [hsnd]
  refine ⟨?_, ?_, ?_⟩
  · intro h0
    rw [hD, if_neg (by simp [h0])]
  · intro hpos hsd
    rw [hD, if_pos (ne_of_gt hpos), capTime_eq_ratMod (le_of_lt hpos) hsd]
  · intro hpos hst hlt hle
    have hcap : capTime w._duration snd.duration = w._duration :=
      capTime_eq_self (le_of_lt hpos) hlt
    have hmin : min w._duration (snd.duration - w._startTime) = w._duration :=
      min_eq_left (by linarith)
    constructor
    · rw [hD, if_pos (ne_of_gt hpos), hcap, hmin]
    · unfold effectiveDurationSpec
      rw [hsnd]
      dsimp only
      rw [if_pos hpos, hD, if_pos (ne_of_gt hpos), hcap, hmin]

/-- Witness for C2 amended at a window inside the resource. -/
theorem c2_witness :
    wWindow._sound = some snd10 ∧ (0:ℚ) < wWindow._duration ∧
    (0:ℚ) ≤ wWindow._startTime ∧ wWindow._duration < snd10.duration ∧
    wWindow._startTime + wWindow._duration ≤ snd10.duration ∧
    durationGet wWindow = min wWindow._duration (snd10.duration - wWindow._startTime) ∧
    durationGet wWindow = effectiveDurationSpec wWindow := by
  have h := (c2_duration_getter wWindow snd10 (by with_unfolding_all rfl)).2.2
    (by with_unfolding_all decide) (by with_unfolding_all decide)
    (by with_unfolding_all decide) (by with_unfolding_all decide)
  exact ⟨by with_unfolding_all rfl, by with_unfolding_all decide, by with_unfolding_all decide,
    by with_unfolding_all decide, by with_unfolding_all decide, h.1, h.2⟩

/-- C3 as stated is false: after `play()`, the manager's destroy broadcast
    nulls the backend source but leaves the state Playing. -/
theorem c3_counterexample :
    (run wBase [Op.play, Op.mgrDestroy])._state = PState.playing ∧
    (run wBase [Op.play, Op.mgrDestroy]).source = none :=
  ⟨by with_unfolding_all rfl, by with_unfolding_all rfl⟩

/-- C3 amended: starting from construction, along every trace of public
    operations and manager signal handlers that contains no destroy
    broadcast, a non-Stopped state implies a non-null backend source.  The
    destroy handler is the sole violation (see the counterexample). -/
theorem c3_source_invariant (snd : Option Sound) (v p : ℚ) (lp : Bool) (st du mv : ℚ)
    (ms : Bool) (t0 : ℚ) (ops : List Op) (hops : ∀ op ∈ ops, op ≠ Op.mgrDestroy) :
    srcInv (run (initWorld snd v p lp st du mv ms t0) ops) :=
  run_srcInv ops _ hops (srcInv_of_stopped (initWorld_state snd v p lp st du mv ms t0))

/-- Witness for C3 amended on a concrete destroy-free trace. -/
theorem c3_witness :
    (∀ op ∈ [Op.play, Op.pause], op ≠ Op.mgrDestroy) ∧
    srcInv (run (initWorld (some snd10) 1 1 false 0 0 1 false 0) [Op.play, Op.pause]) :=
  ⟨by decide,
   c3_source_invariant (some snd10) 1 1 false 0 0 1 false 0 [Op.play, Op.pause] (by decide)⟩

/-- C6 as stated is false: in the reachable state left by a manager destroy
    broadcast during playback, the source is null, `play()` returns false,
    yet the state is Playing, not Stopped. -/
theorem c6_counterexample :
    (run wBase [Op.play, Op.mgrDestroy]).source = none ∧
    (playFn (run wBase [Op.play, Op.mgrDestroy])).2 = false ∧
    (playFn (run wBase [Op.play, Op.mgrDestroy])).1._state ≠ PState.stopped := by
  refine ⟨by with_unfolding_all rfl, by with_unfolding_all rfl, by with_unfolding_all decide⟩

/-- C6 amended: `play()` on an instance whose backend source is null
    returns false and leaves the entire state unchanged — in particular the
    state remains Stopped exactly when it already was Stopped. -/
theorem c6_play_null_source (w : World) (h : w.source = none) : playFn w = (w, false) :=
  play_of_no_source h

/-- Witness for C6 amended at the destroyed instance. -/
theorem c6_witness :
    (run wBase [Op.play, Op.mgrDestroy]).source = none ∧
    playFn (run wBase [Op.play, Op.mgrDestroy]) = (run wBase [Op.play, Op.mgrDestroy], false) :=
  ⟨by with_unfolding_all rfl,
   c6_play_null_source (run wBase [Op.play, Op.mgrDestroy]) (by with_unfolding_all rfl)⟩

/-- C1 (the code contradicts the claim; the position bookkeeping comment at
    `pause()` states the intent): with pitch 1 on a ten-second sound, play
    at t=1, pause at t=2 — `currentTime` reads 1 — then resume at t=5: the
    state is Playing, but `currentTime` reads 4, not ≈1.  The `pitch`
    re-application inside `resume()` re-integrates from the stale pause-time
    checkpoint and adds the 3 seconds of paused wall time. -/
theorem c1_pause_resume_position :
    (currentTimeGet (run wBase [Op.tick 1, Op.play, Op.tick 1, Op.pause])).1 = 1 ∧
    (run wBase [Op.tick 1, Op.play, Op.tick 1, Op.pause, Op.tick 3, Op.resume])._state =
      PState.playing ∧
    (currentTimeGet
      (run wBase [Op.tick 1, Op.play, Op.tick 1, Op.pause, Op.tick 3, Op.resume])).1 = 4 :=
  ⟨by with_unfolding_all rfl, by with_unfolding_all rfl, by with_unfolding_all rfl⟩

/-- C4: the one-shot end suppression.  After a programmatic `stop()`,
    `pause()` or seek the flag is set; no operation but an actual end
    notification consumes it; a suppressed notification only clears the
    flag (no 'end' event, no second stop); an unsuppressed notification
    fires 'end' and performs an internal stop. -/
theorem c4_end_suppression (w : World) (snd : Sound) (v : ℚ) :
    ((stopFn w).2 = true → ((stopFn w).1)._suspendEndEvent = true) ∧
    ((pauseFn w).2 = true → ((pauseFn w).1)._suspendEndEvent = true) ∧
    (w._state = PState.playing → w.source ≠ none → ¬v < 0 →
      (currentTimeSetFn w v)._suspendEndEvent = true) ∧
    (∀ op : Op, op ≠ Op.ended → w._suspendEndEvent = true →
      (step w op)._suspendEndEvent = true) ∧
    (w._suspendEndEvent = true → onEnded w = { w with _suspendEndEvent := false }) ∧
    (w._suspendEndEvent = false → w._state = PState.playing → w.source ≠ none →
      w._suspendInstanceEvents = false → w._sound = some snd → snd.hasBuffer = true →
      (onEnded w).events = w.events ++ [Ev.evEnd, Ev.evReady, Ev.evStop] ∧
      (onEnded w)._state = PState.stopped ∧
      (onEnded w).nativeStops = w.nativeStops + 1 ∧
      (onEnded w)._suspendEndEvent = true) ∧
    (w._suspendEndEvent = false → w._state = PState.stopped →
      (onEnded w).events = w.events ++ [Ev.evEnd] ∧
      (onEnded w).nativeStops = w.nativeStops ∧
      (onEnded w)._state = PState.stopped) := by
  refine ⟨?_, ?_, ?_, ?_, ?_, ?_, ?_⟩
  · unfold stopFn
    split
    · intro h
      exact absurd h (by simp)
    · intro _
      dsimp only
      rw [fireIf_suspendEnd, createSource_suspendEnd]
      split <;> rfl
  · unfold pauseFn
    split
    · intro h
      exact absurd h (by simp)
    · intro _
      dsimp only
      rw [fireIf_suspendEnd, createSource_suspendEnd, sourceStop_suspendEnd]
  · intro hpl hsrc hneg
    unfold currentTimeSetFn
    rw [if_neg hneg, if_pos hpl]
    dsimp only
    exact play_flag_mono
      (stop_sets_flag (by rw [hpl]; exact fun hc => PState.noConfusion hc) hsrc)
  · exact fun op hop h => step_flag_mono op hop h
  · exact onEnded_suppressed
  · intro hflag hpl hsrc hsie hsnd hbuf
    rw [onEnded_of_flag_false hflag]
    obtain ⟨he, hs, hn, _⟩ := stop_success_shape
      (show (fireAlways w Ev.evEnd)._state = PState.playing from hpl)
      (show (fireAlways w Ev.evEnd).source ≠ none from hsrc)
      (show (fireAlways w Ev.evEnd)._sound = some snd from hsnd) hbuf
      (show (fireAlways w Ev.evEnd)._suspendInstanceEvents = false from hsie)
    refine ⟨?_, hs, ?_, ?_⟩
    · rw [he, fireAlways_events]
      simp
    · rw [hn]
      rfl
    · exact stop_sets_flag
        (show (fireAlways w Ev.evEnd)._state ≠ PState.stopped by
          rw [fireAlways_state, hpl]; exact fun hc => PState.noConfusion hc)
        (show (fireAlways w Ev.evEnd).source ≠ none from hsrc)
  · intro hflag hstop
    rw [onEnded_of_flag_false hflag]
    have hid : stopFn (fireAlways w Ev.evEnd) = (fireAlways w Ev.evEnd, false) := by
      unfold stopFn
      rw [if_pos (Or.inl (show (fireAlways w Ev.evEnd)._state = PState.stopped from hstop))]
    rw [hid]
    exact ⟨fireAlways_events w Ev.evEnd, rfl, hstop⟩

/-- Witness for C4 at concrete instances: a stopped-then-notified instance
    consumes the flag silently; a playing instance with a clear flag fires
    'end' and stops. -/
theorem c4_witness :
    ((run wBase [Op.play, Op.stop])._suspendEndEvent = true ∧
      onEnded (run wBase [Op.play, Op.stop]) =
        { (run wBase [Op.play, Op.stop]) with _suspendEndEvent := false }) ∧
    ((run wBase [Op.play])._suspendEndEvent = false ∧
      (onEnded (run wBase [Op.play])).events =
        (run wBase [Op.play]).events ++ [Ev.evEnd, Ev.evReady, Ev.evStop] ∧
      (onEnded (run wBase [Op.play]))._state = PState.stopped) := by
  constructor
  · refine ⟨by with_unfolding_all rfl, ?_⟩
    exact (c4_end_suppression (run wBase [Op.play, Op.stop]) snd10 0).2.2.2.2.1
      (by with_unfolding_all rfl)
  · refine ⟨by with_unfolding_all rfl, ?_, ?_⟩
    · exact ((c4_end_suppression (run wBase [Op.play]) snd10 0).2.2.2.2.2.1
        (by with_unfolding_all rfl) (by with_unfolding_all rfl)
        (by with_unfolding_all decide) (by with_unfolding_all rfl)
        (by with_unfolding_all rfl) (by with_unfolding_all rfl)).1
    · exact ((c4_end_suppression (run wBase [Op.play]) snd10 0).2.2.2.2.2.1
        (by with_unfolding_all rfl) (by with_unfolding_all rfl)
        (by with_unfolding_all decide) (by with_unfolding_all rfl)
        (by with_unfolding_all rfl) (by with_unfolding_all rfl)).2.1

/-- C7 as stated is false: with resource duration 10, `startTime = 8` and
    window duration 5, seeking to 4 while stopped and then playing starts
    the backend source at resource-absolute offset 2 (window length taken
    from the `duration` getter, `capTime(5,10) = 5`), whereas the formula
    built on the spec's min-based effectiveDuration `min(5, 2) = 2`
    predicts offset `(8 + (4 mod 2)) mod 10 = 8`. -/
theorem c7_counterexample :
    (playFn (currentTimeSetFn wOverrun 4)).1.startLog = [(2, some 5)] ∧
    ratMod (wOverrun._startTime + ratMod 4 (effectiveDurationSpec wOverrun))
      (sndDur wOverrun) = 8 ∧ ((2:ℚ), (some (5:ℚ) : Option ℚ)) ≠ (8, some 5) := by
  refine ⟨by with_unfolding_all rfl, by with_unfolding_all rfl, by with_unfolding_all decide⟩

/-- C7 amended: setting `currentTime = x` (x ≥ 0) while stopped and then
    calling `play()` with a live source succeeds, clears the pending seek,
    and starts the backend source at resource-absolute offset
    `(startTime + (x mod D)) mod resourceDuration`, where `D` is the value
    of the `duration` getter (`windowDuration mod resourceDuration` when the
    window duration is non-zero), bounded by the window duration. -/
theorem c7_seek_then_play (w : World) (x : ℚ)
    (hstate : w._state = PState.stopped) (hsrc : w.source ≠ none)
    (hx : 0 ≤ x) (hst : 0 ≤ w._startTime)
    (hD : 0 < durationGet w) (hR : 0 < sndDur w) :
    (playFn (currentTimeSetFn w x)).2 = true ∧
    ((playFn (currentTimeSetFn w x)).1)._startOffset = none ∧
    ((playFn (currentTimeSetFn w x)).1).startLog = w.startLog ++
      [(ratMod (w._startTime + ratMod x (durationGet w)) (sndDur w),
        if w._duration ≠ 0 then some w._duration else none)] := by
  obtain ⟨src, hsome⟩ := Option.ne_none_iff_exists'.mp hsrc
  have hset : currentTimeSetFn w x =
      { w with _startOffset := some x, _currentTime := x, _calculatedCurrentTimeAt := w.time } := by
    unfold currentTimeSetFn
    rw [if_neg (not_lt.mpr hx), if_neg (by rw [hstate]; exact fun hc => PState.noConfusion hc)]
  obtain ⟨hret, hoff, hlog⟩ := play_from_stopped
    (show (currentTimeSetFn w x)._state = PState.stopped by rw [hset]; exact hstate)
    (show (currentTimeSetFn w x).source = some src by rw [hset]; exact hsome)
  have ha : (currentTimeSetFn w x).startLog = w.startLog := by rw [hset]
  have hb : (currentTimeSetFn w x)._startTime = w._startTime := by rw [hset]
  have hc : ((currentTimeSetFn w x)._startOffset).getD 0 = x := by rw [hset]; rfl
  have hd : durationGet (currentTimeSetFn w x) = durationGet w := by rw [hset]; rfl
  have he : sndDur (currentTimeSetFn w x) = sndDur w := by rw [hset]; rfl
  have hf : (currentTimeSetFn w x)._duration = w._duration := by rw [hset]
  rw [ha, hb, hc, hd, he, hf] at hlog
  rw [capTime_eq_ratMod hx hD,
    capTime_eq_ratMod (add_nonneg hst (ratMod_nonneg x hD)) hR] at hlog
  exact ⟨hret, hoff, hlog⟩

/-- Witness for C7 amended at the concrete overrunning window. -/
theorem c7_witness :
    wOverrun._state = PState.stopped ∧ wOverrun.source ≠ none ∧
    (0:ℚ) ≤ 4 ∧ (0:ℚ) ≤ wOverrun._startTime ∧
    0 < durationGet wOverrun ∧ 0 < sndDur wOverrun ∧
    ((playFn (currentTimeSetFn wOverrun 4)).2 = true ∧
      ((playFn (currentTimeSetFn wOverrun 4)).1)._startOffset = none ∧
      ((playFn (currentTimeSetFn wOverrun 4)).1).startLog = wOverrun.startLog ++
        [(ratMod (wOverrun._startTime + ratMod 4 (durationGet wOverrun)) (sndDur wOverrun),
          if wOverrun._duration ≠ 0 then some wOverrun._duration else none)]) :=
  ⟨by with_unfolding_all rfl, by with_unfolding_all decide, by with_unfolding_all decide,
   by with_unfolding_all decide, by with_unfolding_all decide, by with_unfolding_all decide,
   c7_seek_then_play wOverrun 4 (by with_unfolding_all rfl) (by with_unfolding_all decide)
     (by with_unfolding_all decide) (by with_unfolding_all decide)
     (by with_unfolding_all decide) (by with_unfolding_all decide)⟩

/-- C5 as stated is false: passing the destination as `firstNode` and the
    connector as `lastNode` (both non-null) and then installing a proper
    chain makes the adapter disconnect an edge that is no longer connected
    — the run aborts in the no-such-connection branch. -/
theorem c5_counterexample :
    runExtOps graphInit [ExtOp.set destination (some connector),
      ExtOp.set 2 (some 3)] = none := by decide

/-- C5 amended: for every sequence of `setExternalNodes` and
    `clearExternalNodes` calls whose nodes are distinct from the connector
    and destination, every disconnect names a currently connected edge (no
    call fails), and after `setExternalNodes(A,B)` followed by
    `setExternalNodes(C,D)` the audio path reads
    `connector → C → D → destination` and nothing else. -/
theorem c5_external_chain (ops : List ExtOp) (hops : ∀ op ∈ ops, extOk op)
    (A B C D : ℕ) (hA : nodeOk A) (hB : nodeOk B) (hC : nodeOk C) (hD : nodeOk D) :
    (∃ s, runExtOps graphInit ops = some s) ∧
    (∃ s, runExtOps graphInit [ExtOp.set A (some B), ExtOp.set C (some D)] = some s ∧
      (connector, C) ∈ s.edges ∧ (D, destination) ∈ s.edges ∧
      s.edges = {(connector, C), (D, destination)}) := by
  constructor
  · obtain ⟨s, hs, _⟩ := runExtOps_inv ops graphInit hops extInv_init
    exact ⟨s, hs⟩
  · obtain ⟨s1, h1, hf1, hl1, he1⟩ :=
      setExternalNodes_inv extInv_init hA (show nodeOk ((some B).getD A) from hB)
    have hinv1 : extInv s1 :=
      extInv_of_chain hf1 hl1 hA (show nodeOk ((some B).getD A) from hB) he1
    obtain ⟨s2, h2, hf2, hl2, he2⟩ :=
      setExternalNodes_inv hinv1 hC (show nodeOk ((some D).getD C) from hD)
    refine ⟨s2, ?_, ?_, ?_, ?_⟩
    · show extStep (extStep (some graphInit) (ExtOp.set A (some B))) (ExtOp.set C (some D)) =
        some s2
      simp only [extStep]
      rw [h1]
      simp only [extStep]
      exact h2
    · rw [he2]
      exact Finset.mem_insert_self _ _
    · rw [he2]
      simp
    · rw [he2]
      simp

/-- Witness for C5 amended at a concrete valid call sequence. -/
theorem c5_witness :
    (∀ op ∈ [ExtOp.set 2 (some 3), ExtOp.clear], extOk op) ∧
    nodeOk 2 ∧ nodeOk 3 ∧ nodeOk 4 ∧ nodeOk 5 ∧
    ((∃ s, runExtOps graphInit [ExtOp.set 2 (some 3), ExtOp.clear] = some s) ∧
      (∃ s, runExtOps graphInit [ExtOp.set 2 (some 3), ExtOp.set 4 (some 5)] = some s ∧
        (connector, 4) ∈ s.edges ∧ (5, destination) ∈ s.edges ∧
        s.edges = {(connector, 4), (5, destination)})) :=
  ⟨by decide, by decide, by decide, by decide, by decide,
   c5_external_chain [ExtOp.set 2 (some 3), ExtOp.clear] (by decide) 2 3 4 5
     (by decide) (by decide) (by decide) (by decide)⟩

/-- C8 as stated is false: after `setExternalNodes(destination, connector)`
    — non-null arguments aliasing the internal endpoints —
    `clearExternalNodes` disconnects the `connector → destination` edge
    twice and aborts in the no-such-connection branch instead of restoring
    the direct path. -/
theorem c8_counterexample :
    runExtOps graphInit [ExtOp.set destination (some connector), ExtOp.clear] = none := by
  decide

/-- C8 amended: `clearExternalNodes()` with no chain ever set performs no
    disconnect and leaves the graph exactly as built (`connector →
    destination`, both references null, empty disconnect log); and from any
    reachable graph shape, `setExternalNodes(A,B)` with proper external
    nodes followed by `clearExternalNodes()` restores the direct
    `connector → destination` path and nulls both references. -/
theorem c8_clear_roundtrip (s : GraphSt) (A B : ℕ)
    (hs : extInv s) (hA : nodeOk A) (hB : nodeOk B) :
    (clearExternalNodes graphInit = some graphInit ∧ graphInit.dlog = []) ∧
    (∃ s1 s2, setExternalNodes s A (some B) = some s1 ∧ clearExternalNodes s1 = some s2 ∧
      s2.firstNode = none ∧ s2.lastNode = none ∧
      s2.edges = {(connector, destination)}) := by
  refine ⟨⟨by decide, rfl⟩, ?_⟩
  obtain ⟨s1, h1, hf1, hl1, he1⟩ :=
    setExternalNodes_inv hs hA (show nodeOk ((some B).getD A) from hB)
  obtain ⟨s2, h2, hf2, hl2, he2⟩ := clearExternalNodes_inv
    (extInv_of_chain hf1 hl1 hA (show nodeOk ((some B).getD A) from hB) he1)
  exact ⟨s1, s2, h1, h2, hf2, hl2, he2⟩

/-- Witness for C8 amended at the initial graph with proper nodes. -/
theorem c8_witness :
    extInv graphInit ∧ nodeOk 2 ∧ nodeOk 3 ∧
    ((clearExternalNodes graphInit = some graphInit ∧ graphInit.dlog = []) ∧
      (∃ s1 s2, setExternalNodes graphInit 2 (some 3) = some s1 ∧
        clearExternalNodes s1 = some s2 ∧ s2.firstNode = none ∧ s2.lastNode = none ∧
        s2.edges = {(connector, destination)})) :=
  ⟨extInv_init, by decide, by decide,
   c8_clear_roundtrip graphInit 2 3 extInv_init (by decide) (by decide)⟩

end SoundEngine
